import Mathlib

/-!
Shallow embedding of the try-mdns program (src/src/main.rs): a Rust program
that registers an mDNS service, browses for peers, and exchanges UDP
datagrams with resolved peers.  Bytes are modelled as `Nat` (values < 256 in
practice; no arithmetic is performed on them, so no overflow arises), fixed
Rust arrays `[u8; 1024]` as `List Nat` of length 1024, and a Rust index
panic (out-of-bounds `buf[i] = c`) as `Option.none`.
-/

namespace TryMdns

/-- A byte of a buffer or payload. -/
abbrev Byte := Nat

/-- An IPv4 address as its four octets, as produced by `v4.octets()`. -/
structure Ipv4 where
  o0 : Nat
  o1 : Nat
  o2 : Nat
  o3 : Nat
deriving DecidableEq, Repr

/-- `std::net::IpAddr`: either a V4 address or a V6 address.  The program
never inspects the contents of a V6 address, so they are not modelled. -/
inductive IpAddr where
  | v4 (a : Ipv4)
  | v6
deriving DecidableEq, Repr

/-- `IpAddr::is_ipv4`. -/
def IpAddr.is_ipv4 : IpAddr → Bool
  | .v4 _ => true
  | .v6 => false

/-- `std::net::SocketAddr`: an IP address paired with a port (u16). -/
structure SocketAddr where
  ip : IpAddr
  port : Nat
deriving DecidableEq, Repr

/-- Buffer capacity of an outbound message: `1 << 10` in the source. -/
def BUF_CAP : Nat := 1 <<< 10

/-- The `Message` struct: destination, fixed `[u8; 1 << 10]` buffer
(modelled as a byte list of length `BUF_CAP`), and the count `n` of
valid bytes. -/
structure Message where
  dst : SocketAddr
  buf : List Byte
  n : Nat
deriving DecidableEq, Repr

/-- The byte-writing loop of `impl Write for Message`:
`for (i, c) in s.bytes().enumerate() { buf[*n + i] = c; }` writing the
payload at positions `i`, `i+1`, ... of `buf`.  A Rust out-of-bounds index
panics (it never writes out of bounds); the panic is modelled as `none`. -/
def writeBytes : List Byte → Nat → List Byte → Option (List Byte)
  | buf, _, [] => some buf
  | buf, i, c :: cs =>
    if i < buf.length then writeBytes (buf.set i c) (i + 1) cs else none

/-- `Message::write_str`: writes the payload bytes starting at index `n`
and then advances `n` by the payload length (`*n += s.len()`).  `none`
models the bounds-check panic of the byte loop. -/
def Message.write_str (m : Message) (s : List Byte) : Option Message :=
  match writeBytes m.buf m.n s with
  | some buf => some { dst := m.dst, buf := buf, n := m.n + s.length }
  | none => none

/-- ASCII bytes of a Lean string literal, used to transcribe the string
literals of the source. -/
def ascii (s : String) : List Byte :=
  s.data.map Char.toNat

/-- A concrete socket address for closed instances of the theorems. -/
def addrEx : SocketAddr :=
  { ip := IpAddr.v4 { o0 := 10, o1 := 0, o2 := 0, o3 := 1 }, port := 9000 }

/-! ### Transport component: send and receive tasks (`UdpService::run`) -/

/-- The send task body: `let Message { dst, buf, n } = rx.recv().await?;
... sock.send_to(&buf, dst)`.  The datagram actually passed to `send_to`
is the ENTIRE buffer `buf`, together with the destination `dst`.  (The
count `n` is used only for the log line.) -/
def sentDatagram (m : Message) : List Byte × SocketAddr :=
  (m.buf, m.dst)

/-- The send task over the sequence of messages popped from the queue:
one datagram per message, in order. -/
def sendTask (queue : List Message) : List (List Byte × SocketAddr) :=
  queue.map sentDatagram

/-- Size of the receive buffer `vec![0u8; 1 << 10]`. -/
def RECV_BUF_LEN : Nat := 1 <<< 10

/-- The receive task (the second loop of `UdpService::run`) run over a
finite observed prefix of the incoming stream.  Each element is either a
delivered datagram (`Except.ok` with its full payload) or a socket error
(`Except.error` with an error code).  `recv_from` on the 1024-byte buffer
delivers at most `RECV_BUF_LEN` bytes of a datagram — an oversized
datagram is cut off, as the source comment documents.  The result is the
list of logged payloads and, if a socket error occurred, that error (the
`?` terminates the loop there); otherwise the loop is still running. -/
def recvTask : List (Except Nat (List Byte)) → List (List Byte) × Option Nat
  | [] => ([], none)
  | .ok d :: rest =>
    let r := recvTask rest
    (d.take RECV_BUF_LEN :: r.1, r.2)
  | .error e :: _ => ([], some e)

/-! ### Discovery component (`DiscoveryService::run`) -/

/-- The parsed CLI `Config` as used by the discovery loop.  Its textual
fields are carried as byte lists (`String::as_bytes` view). -/
structure Config where
  instance_name : List Byte
  service_name : List Byte
  port : Nat
  properties : List (List Byte × List Byte)
deriving DecidableEq, Repr

/-- The data of an `mdns_sd::ServiceEvent::ServiceResolved` that the loop
reads: `get_fullname()`, `get_addresses_v4()` (as a list, in iteration
order) and `get_port()`. -/
structure ResolvedInfo where
  fullname : List Byte
  addresses_v4 : List Ipv4
  port : Nat
deriving DecidableEq, Repr

/-- An `mdns_sd::ServiceEvent`: the loop matches `ServiceResolved` and
ignores every other variant (`_ => ()`), so the others are collapsed. -/
inductive ServiceEvent where
  | serviceResolved (info : ResolvedInfo)
  | other
deriving DecidableEq, Repr

/-- The payload written by
`write!(&mut msg, "MESSAGE {} Resolved {} END", config.instance_name, info.get_fullname())`. -/
def payloadBytes (instName fullname : List Byte) : List Byte :=
  ascii "MESSAGE " ++ instName ++ ascii " Resolved " ++ fullname ++ ascii " END"

/-- One iteration of the `for ip in info.get_addresses_v4()` body: build a
`Message` with `dst = (ip, info.get_port())`, zeroed buffer `[0; 1024]`
and `n = 0`, then write the announcement payload into it.  `none` models
the abort (panic of the byte loop) if the payload does not fit. -/
def mkResolvedMessage (cfg : Config) (fullname : List Byte) (ip : Ipv4)
    (port : Nat) : Option Message :=
  Message.write_str
    { dst := { ip := IpAddr.v4 ip, port := port }, buf := List.replicate 1024 0, n := 0 }
    (payloadBytes cfg.instance_name fullname)

/-- The whole `for` loop over the resolved addresses: one message per IPv4
address, in order, each handed to `tx.send`; the first failed write aborts
the run (`none`). -/
def buildMessages (cfg : Config) (fullname : List Byte) (port : Nat) :
    List Ipv4 → Option (List Message)
  | [] => some []
  | ip :: rest =>
    match mkResolvedMessage cfg fullname ip port, buildMessages cfg fullname port rest with
    | some m, some ms => some (m :: ms)
    | _, _ => none

/-- The `match event` arm of the loop body: a `ServiceResolved` event
produces one message per IPv4 address; every other event kind produces no
message (`_ => ()`). -/
def handleEvent (cfg : Config) : ServiceEvent → Option (List Message)
  | .serviceResolved info => buildMessages cfg info.fullname info.port info.addresses_v4
  | .other => some []

/-- The event loop `while let Ok(event) = receiver.recv_async().await`,
run over the finite sequence of events the subscription delivers before it
is closed/exhausted.  When the subscription is exhausted the `while let`
exits and `run` returns `Ok(())`; `some msgs` is that successful return
together with the messages enqueued along the way, `none` the abort of a
failed write.  (The 500 ms pacing delay has no effect on the data and is
not modelled.) -/
def discoveryRun (cfg : Config) : List ServiceEvent → Option (List Message)
  | [] => some []
  | e :: rest =>
    match handleEvent cfg e, discoveryRun cfg rest with
    | some ms, some tail => some (ms ++ tail)
    | _, _ => none

/-! ### Bind-address selection (`UdpService::new`) -/

/-- One entry of `if_addrs::get_if_addrs()`: its loopback and link-local
flags and its IP address. -/
structure IfAddr where
  is_loopback : Bool
  is_link_local : Bool
  ip : IpAddr
deriving DecidableEq, Repr

/-- The first filter of the interface chain:
`!iface.is_loopback() && !iface.is_link_local() && iface.ip().is_ipv4()`. -/
def ifaceKeep (i : IfAddr) : Bool :=
  !i.is_loopback && !i.is_link_local && i.ip.is_ipv4

/-- The second filter, after mapping to the IP:
`IpAddr::V4(v4) => v4.octets()[0] == 10, IpAddr::V6(_) => false`. -/
def ipTenNet : IpAddr → Bool
  | .v4 a => a.o0 == 10
  | .v6 => false

/-- The address-selection pipeline of `UdpService::new`: filter the
interfaces, map to their IPs, filter to the 10.x.x.x range, take the first
(`next()`), and otherwise fail with
`anyhow!("Failed to select network interface")`. -/
def selectBindAddr (ifaces : List IfAddr) : Except (List Char) IpAddr :=
  match (((ifaces.filter ifaceKeep).map IfAddr.ip).filter ipTenNet).head? with
  | some ip => .ok ip
  | none => .error "Failed to select network interface".data

/-! ### CLI key=value parsing (`parse_key_val`) -/

/-- `s.find('=')`: the index of the first `=` of the string, if any.  The
source indexes by UTF-8 byte; since `=` is a one-byte character that never
occurs inside the encoding of another character, splitting at the first
`=` character coincides with splitting at the first `=` byte, and the
string is modelled as its character list. -/
def findEq : List Char → Option Nat
  | [] => none
  | c :: cs => if c = '=' then some 0 else (findEq cs).map (· + 1)

/-- The error message built when no `=` is found:
`format!("invalid KEY=value: no ``=`` found in ``{s}``")` (with the input
interpolated between backticks). -/
def noEqMsg (s : List Char) : List Char :=
  "invalid KEY=value: no `=` found in `".data ++ s ++ "`".data

/-- `parse_key_val::<String, String>`: split at the first `=` into
`(s[..pos], s[pos + 1..])`.  `FromStr` for `String` is the identity and
never fails, so the only error is the missing `=`. -/
def parse_key_val (s : List Char) : Except (List Char) (List Char × List Char) :=
  match findEq s with
  | some pos => .ok (s.take pos, s.drop (pos + 1))
  | none => .error (noEqMsg s)

/-! ### The bounded message queue -/

/-- The capacity of the channel created by `bounded(10)` in
`UdpService::new`. -/
def QUEUE_CAP : Nat := 10

/-- Modelled from the spec: the bounded single-producer/single-consumer
channel itself (`smol::channel::bounded`) is library code outside this
repository; per the spec's glossary it is a fixed-capacity FIFO whose push
blocks while the queue is full.  `qPush` is a push attempt on a queue
state (front of the list = oldest): it succeeds when the queue holds fewer
than `QUEUE_CAP` messages, and `none` means the producer stays blocked
(the state is unchanged). -/
def qPush (q : List Message) (m : Message) : Option (List Message) :=
  if q.length < QUEUE_CAP then some (q ++ [m]) else none

/-- Modelled from the spec: the consumer's pop takes the oldest message;
on an empty queue the consumer blocks (`none`). -/
def qPop (q : List Message) : Option (Message × List Message) :=
  match q with
  | [] => none
  | m :: rest => some (m, rest)

/-- An operation on the queue: a producer push or a consumer pop. -/
inductive QOp where
  | push (m : Message)
  | pop
deriving Repr

/-- One scheduler step of the queue: a blocked operation leaves the state
unchanged. -/
def qStep (q : List Message) : QOp → List Message
  | .push m => (qPush q m).getD q
  | .pop => ((qPop q).map (fun r => r.2)).getD q

/-- The queue state reached from the initial empty queue by a sequence of
operations. -/
def runQueue (ops : List QOp) : List Message :=
  ops.foldl qStep []

/-- The datagrams delivered before the first socket error of a stream
prefix (claim-side description). -/
def okDatagrams : List (Except Nat (List Byte)) → List (List Byte)
  | [] => []
  | .ok d :: rest => d :: okDatagrams rest
  | .error _ :: _ => []

/-- The first socket error of a stream prefix, if any (claim-side
description). -/
def firstErr : List (Except Nat (List Byte)) → Option Nat
  | [] => none
  | .ok _ :: rest => firstErr rest
  | .error e :: _ => some e

/-! ### Lemmas about the byte-writing loop -/

theorem take_succ_set (buf : List Byte) (i : Nat) (c : Byte) (hi : i < buf.length) :
    (buf.set i c).take (i + 1) = buf.take i ++ [c] := by
  rw [List.set_eq_take_cons_drop c hi, List.take_append_eq_append_take]
  have h1 : (buf.take i).length = i := by rw [List.length_take]; omega
  rw [List.take_of_length_le (by omega : (buf.take i).length ≤ i + 1), h1]
  simp

theorem writeBytes_some (s : List Byte) : ∀ (buf : List Byte) (i : Nat),
    i + s.length ≤ buf.length →
    writeBytes buf i s = some (buf.take i ++ s ++ buf.drop (i + s.length)) := by
  induction s with
  | nil =>
    intro buf i _
    simp [writeBytes]
  | cons c cs ih =>
    intro buf i h
    have hi : i < buf.length := by simp at h; omega
    rw [writeBytes, if_pos hi,
      ih (buf.set i c) (i + 1) (by rw [List.length_set]; simp at h; omega)]
    have hdrop : (buf.set i c).drop (i + 1 + cs.length) = buf.drop (i + 1 + cs.length) :=
      List.drop_set_of_lt c buf (by omega)
    rw [take_succ_set buf i c hi, hdrop]
    have harith : i + 1 + cs.length = i + (c :: cs).length := by simp; omega
    rw [harith]
    simp

theorem writeBytes_none (s : List Byte) : ∀ (buf : List Byte) (i : Nat),
    buf.length < i + s.length → s ≠ [] → writeBytes buf i s = none := by
  induction s with
  | nil => intro buf i _ hne; exact absurd rfl hne
  | cons c cs ih =>
    intro buf i h _
    by_cases hi : i < buf.length
    · rw [writeBytes, if_pos hi]
      cases cs with
      | nil => simp at h; omega
      | cons d ds =>
        exact ih (buf.set i c) (i + 1) (by rw [List.length_set]; simp at h ⊢; omega)
          (by simp)
    · rw [writeBytes, if_neg hi]

theorem write_str_some (m : Message) (s : List Byte)
    (h : m.n + s.length ≤ m.buf.length) :
    Message.write_str m s =
      some { dst := m.dst, buf := m.buf.take m.n ++ s ++ m.buf.drop (m.n + s.length),
             n := m.n + s.length } := by
  rw [Message.write_str, writeBytes_some s m.buf m.n h]

theorem write_str_none (m : Message) (s : List Byte)
    (h : m.buf.length < m.n + s.length) (hs : s ≠ []) :
    Message.write_str m s = none := by
  rw [Message.write_str, writeBytes_none s m.buf m.n h hs]

/-- C3: for every Outbound Message the length field `n` never exceeds the
buffer capacity (1024): a successful write preserves `n ≤ BUF_CAP` (and
the buffer length), and a write whose total size would exceed the capacity
fails (returns `none`, modelling Rust's bounds-check panic — no
out-of-bounds write occurs and no memory is corrupted). -/
theorem write_str_capacity_invariant (m m' : Message) (s : List Byte)
    (hbuf : m.buf.length = BUF_CAP) (hn : m.n ≤ BUF_CAP) :
    (Message.write_str m s = some m' → m'.n ≤ BUF_CAP ∧ m'.buf.length = BUF_CAP) ∧
    (BUF_CAP < m.n + s.length → Message.write_str m s = none) := by
  constructor
  · intro hw
    by_cases hle : m.n + s.length ≤ BUF_CAP
    · rw [write_str_some m s (by omega)] at hw
      cases hw
      constructor
      · exact hle
      · simp [List.length_take, List.length_drop, hbuf]
        omega
    · have hs : s ≠ [] := by
        intro he
        subst he
        simp at hle
        omega
      rw [write_str_none m s (by omega) hs] at hw
      cases hw
  · intro hover
    have hs : s ≠ [] := by
      intro he
      subst he
      simp at hover
      omega
    exact write_str_none m s (by omega) hs

theorem BUF_CAP_eq : BUF_CAP = 1024 := by decide

/-- The message the loop body builds for one resolved address, written
out: the payload sits at the start of the zero-padded 1024-byte buffer
and `n` is the payload length. -/
def resolvedMsg (cfg : Config) (fullname : List Byte) (port : Nat) (ip : Ipv4) :
    Message :=
  { dst := { ip := IpAddr.v4 ip, port := port },
    buf := payloadBytes cfg.instance_name fullname ++
      List.replicate (1024 - (payloadBytes cfg.instance_name fullname).length) 0,
    n := (payloadBytes cfg.instance_name fullname).length }

theorem mkResolvedMessage_eq (cfg : Config) (fullname : List Byte) (ip : Ipv4)
    (port : Nat)
    (hfit : (payloadBytes cfg.instance_name fullname).length ≤ BUF_CAP) :
    mkResolvedMessage cfg fullname ip port =
      some (resolvedMsg cfg fullname port ip) := by
  have hc := BUF_CAP_eq
  rw [mkResolvedMessage, write_str_some _ _
    (by
      show 0 + (payloadBytes cfg.instance_name fullname).length ≤
        (List.replicate 1024 (0 : Byte)).length
      rw [List.length_replicate]
      omega)]
  show some ({ dst := { ip := IpAddr.v4 ip, port := port },
               buf := (List.replicate 1024 (0 : Byte)).take 0 ++
                 payloadBytes cfg.instance_name fullname ++
                 (List.replicate 1024 (0 : Byte)).drop
                   (0 + (payloadBytes cfg.instance_name fullname).length),
               n := 0 + (payloadBytes cfg.instance_name fullname).length } : Message) =
    some (resolvedMsg cfg fullname port ip)
  simp only [List.take_zero, List.nil_append, Nat.zero_add, List.drop_replicate]
  rfl

set_option maxRecDepth 4096 in
theorem buildMessages_eq (cfg : Config) (fullname : List Byte) (port : Nat)
    (hfit : (payloadBytes cfg.instance_name fullname).length ≤ BUF_CAP) :
    ∀ addrs : List Ipv4,
    buildMessages cfg fullname port addrs =
      some (addrs.map (resolvedMsg cfg fullname port)) := by
  intro addrs
  induction addrs with
  | nil => rfl
  | cons ip rest ih =>
    simp only [buildMessages]
    rw [mkResolvedMessage_eq cfg fullname ip port hfit, ih, List.map_cons]

/-- C4: a resolved event with N IPv4 addresses produces exactly N Outbound
Messages (provided the announcement payload fits the buffer), the i-th
addressed to the i-th address and the event's port, each carrying the
payload `MESSAGE <instance-name> Resolved <peer-fullname> END` as its
valid byte range; any other event kind produces zero messages. -/
theorem resolved_event_fanout (cfg : Config) (info : ResolvedInfo)
    (hfit : (payloadBytes cfg.instance_name info.fullname).length ≤ BUF_CAP) :
    (∃ ms, handleEvent cfg (ServiceEvent.serviceResolved info) = some ms ∧
      ms.length = info.addresses_v4.length ∧
      ∀ (i : Nat) (h1 : i < ms.length) (h2 : i < info.addresses_v4.length),
        (ms.get ⟨i, h1⟩).dst =
          { ip := IpAddr.v4 (info.addresses_v4.get ⟨i, h2⟩), port := info.port } ∧
        (ms.get ⟨i, h1⟩).n = (payloadBytes cfg.instance_name info.fullname).length ∧
        (ms.get ⟨i, h1⟩).buf.take ((ms.get ⟨i, h1⟩).n) =
          payloadBytes cfg.instance_name info.fullname) ∧
    handleEvent cfg ServiceEvent.other = some [] := by
  refine ⟨⟨info.addresses_v4.map (resolvedMsg cfg info.fullname info.port),
    ?_, ?_, ?_⟩, rfl⟩
  · exact buildMessages_eq cfg info.fullname info.port hfit info.addresses_v4
  · rw [List.length_map]
  · intro i h1 h2
    rw [List.get_map]
    refine ⟨rfl, rfl, ?_⟩
    exact List.take_left (payloadBytes cfg.instance_name info.fullname) _

/-- A concrete configuration: instance name `alice`, default service. -/
def cfgEx : Config :=
  { instance_name := ascii "alice", service_name := ascii "_example._udp", port := 0,
    properties := [] }

/-- A concrete resolved peer: `bob`, one address in the 10.0.0.0/8 range. -/
def infoEx : ResolvedInfo :=
  { fullname := ascii "bob._example._udp.local.",
    addresses_v4 := [{ o0 := 10, o1 := 0, o2 := 0, o3 := 2 }], port := 5353 }

/-- Witness for C4 at a concrete input: `alice` resolves `bob` at one
address, and exactly one message is enqueued. -/
theorem resolved_event_fanout_witness :
    (payloadBytes cfgEx.instance_name infoEx.fullname).length ≤ BUF_CAP ∧
    ∃ ms, handleEvent cfgEx (ServiceEvent.serviceResolved infoEx) = some ms ∧
      ms.length = infoEx.addresses_v4.length := by
  refine ⟨by decide, ?_⟩
  obtain ⟨ms, h1, h2, _⟩ := (resolved_event_fanout cfgEx infoEx (by decide)).1
  exact ⟨ms, h1, h2⟩

/-- C10: the event loop never compares a resolved peer against the local
instance: two resolved events differing only in the peer fullname (in
particular, one carrying this process's own full name) produce the same
number of messages to the same destinations — there is no self-filtering. -/
theorem no_self_filtering (cfg : Config) (addrs : List Ipv4) (port : Nat)
    (f g : List Byte)
    (hf : (payloadBytes cfg.instance_name f).length ≤ BUF_CAP)
    (hg : (payloadBytes cfg.instance_name g).length ≤ BUF_CAP) :
    ∃ ms1 ms2,
      handleEvent cfg (ServiceEvent.serviceResolved
        { fullname := f, addresses_v4 := addrs, port := port }) = some ms1 ∧
      handleEvent cfg (ServiceEvent.serviceResolved
        { fullname := g, addresses_v4 := addrs, port := port }) = some ms2 ∧
      ms1.map Message.dst = ms2.map Message.dst ∧
      ms1.length = addrs.length := by
  refine ⟨addrs.map (resolvedMsg cfg f port), addrs.map (resolvedMsg cfg g port),
    ?_, ?_, ?_, ?_⟩
  · exact buildMessages_eq cfg f port hf addrs
  · exact buildMessages_eq cfg g port hg addrs
  · rw [List.map_map, List.map_map]
    rfl
  · rw [List.length_map]

/-- Witness for C10 at a concrete input: a resolved event for the
process's own instance (`alice._example._udp.local.`) is handled exactly
like one for the peer `bob`. -/
theorem no_self_filtering_witness :
    ∃ ms1 ms2,
      handleEvent cfgEx (ServiceEvent.serviceResolved
        { fullname := ascii "alice._example._udp.local.",
          addresses_v4 := infoEx.addresses_v4, port := 5353 }) = some ms1 ∧
      handleEvent cfgEx (ServiceEvent.serviceResolved
        { fullname := ascii "bob._example._udp.local.",
          addresses_v4 := infoEx.addresses_v4, port := 5353 }) = some ms2 ∧
      ms1.map Message.dst = ms2.map Message.dst ∧
      ms1.length = infoEx.addresses_v4.length :=
  no_self_filtering cfgEx infoEx.addresses_v4 5353
    (ascii "alice._example._udp.local.") (ascii "bob._example._udp.local.")
    (by decide) (by decide)

/-- The payload of every event of a subscription sequence fits the message
buffer (trivially true for the ignored kinds, which write nothing). -/
def eventFits (cfg : Config) : ServiceEvent → Prop
  | .serviceResolved info =>
    (payloadBytes cfg.instance_name info.fullname).length ≤ BUF_CAP
  | .other => True

theorem handleEvent_isSome (cfg : Config) (e : ServiceEvent)
    (h : eventFits cfg e) : ∃ ms, handleEvent cfg e = some ms := by
  cases e with
  | serviceResolved info =>
    exact ⟨info.addresses_v4.map (resolvedMsg cfg info.fullname info.port),
      buildMessages_eq cfg info.fullname info.port h info.addresses_v4⟩
  | other => exact ⟨[], rfl⟩

/-- C2 (amended): when the event subscription is closed/exhausted, the
event loop terminates and `DiscoveryService::run` completes SUCCESSFULLY —
it returns `Ok(())` (`some` here), not an error, for every finite event
sequence whose payloads fit the buffer. -/
theorem discovery_run_returns_ok (cfg : Config) (events : List ServiceEvent)
    (h : ∀ e ∈ events, eventFits cfg e) :
    ∃ ms, discoveryRun cfg events = some ms := by
  induction events with
  | nil => exact ⟨[], rfl⟩
  | cons e rest ih =>
    obtain ⟨ms1, h1⟩ := handleEvent_isSome cfg e (h e (List.mem_cons_self e rest))
    obtain ⟨ms2, h2⟩ := ih (fun x hx => h x (List.mem_cons_of_mem e hx))
    exact ⟨ms1 ++ ms2, by simp [discoveryRun, h1, h2]⟩

/-- C2 counterexample: at the concrete input where the subscription is
closed from the start (no events delivered), the discovery run returns
`some []` — the successful `Ok(())` return — and is NOT an error, contrary
to the claim that the whole process then fails with an error. -/
theorem discovery_run_closed_is_ok_counterexample :
    discoveryRun cfgEx [] = some [] ∧ discoveryRun cfgEx [] ≠ none := by
  refine ⟨rfl, ?_⟩
  intro h
  rw [show discoveryRun cfgEx [] = some [] from rfl] at h
  cases h

/-- Witness for C2 (amended) at a concrete input: a one-resolved-event
subscription followed by closure gives a successful return. -/
theorem discovery_run_returns_ok_witness :
    ∃ ms, discoveryRun cfgEx
      [ServiceEvent.serviceResolved infoEx, ServiceEvent.other] = some ms := by
  refine discovery_run_returns_ok cfgEx _ ?_
  intro e he
  rcases List.mem_cons.mp he with rfl | he2
  · exact (by decide :
      (payloadBytes cfgEx.instance_name infoEx.fullname).length ≤ BUF_CAP)
  · rcases List.mem_cons.mp he2 with rfl | he3
    · trivial
    · cases he3

/-- The message whose construction the source performs for a resolved
peer announcement of 5 payload bytes: `hello` written into a fresh
1024-byte buffer, leaving `n = 5`. -/
def msgHello : Message :=
  (Message.write_str { dst := addrEx, buf := List.replicate 1024 0, n := 0 }
    (ascii "hello")).getD { dst := addrEx, buf := [], n := 0 }

theorem msgHello_eq :
    msgHello = { dst := addrEx, buf := ascii "hello" ++ List.replicate 1019 0, n := 5 } := by
  rw [msgHello, write_str_some _ _
    (by
      show 0 + (ascii "hello").length ≤ (List.replicate 1024 (0 : Byte)).length
      rw [List.length_replicate]
      decide)]
  show ({ dst := addrEx,
          buf := (List.replicate 1024 (0 : Byte)).take 0 ++ ascii "hello" ++
            (List.replicate 1024 (0 : Byte)).drop (0 + (ascii "hello").length),
          n := 0 + (ascii "hello").length } : Message) =
    { dst := addrEx, buf := ascii "hello" ++ List.replicate 1019 0, n := 5 }
  simp only [List.take_zero, List.nil_append, Nat.zero_add, List.drop_replicate,
    (by decide : (ascii "hello").length = 5)]

/-- C1 (code bug, evaluated at the failing input): for the queued message
holding the 5-byte payload `hello`, the datagram handed to `send_to` is
the ENTIRE 1024-byte zero-padded buffer (`&buf`), not the message's valid
byte range `&buf[0..n]` — the sent bytes differ from the first `n` bytes
of the buffer. -/
theorem send_to_passes_whole_buffer :
    msgHello.n = 5 ∧
    (sentDatagram msgHello).1.length = BUF_CAP ∧
    (sentDatagram msgHello).1 ≠ msgHello.buf.take msgHello.n := by
  rw [msgHello_eq]
  refine ⟨rfl, ?_, ?_⟩
  · show (ascii "hello" ++ List.replicate 1019 0).length = BUF_CAP
    rw [List.length_append, List.length_replicate, BUF_CAP_eq,
      (by decide : (ascii "hello").length = 5)]
  · have hne : (ascii "hello" ++ List.replicate 1019 (0 : Byte)) ≠
        (ascii "hello" ++ List.replicate 1019 (0 : Byte)).take 5 := by
      intro hcontra
      have hlen := congrArg List.length hcontra
      simp only [List.length_take, List.length_append, List.length_replicate,
        (by decide : (ascii "hello").length = 5)] at hlen
      omega
    exact hne

/-! ### Bind-address selection theorems -/

theorem chain_head_eq_find (ifaces : List IfAddr) :
    ((((ifaces.filter ifaceKeep).map IfAddr.ip).filter ipTenNet).head?) =
      (ifaces.find? (fun i => ifaceKeep i && ipTenNet i.ip)).map IfAddr.ip := by
  induction ifaces with
  | nil => rfl
  | cons i rest ih =>
    by_cases h1 : ifaceKeep i = true
    · by_cases h2 : ipTenNet i.ip = true
      · rw [List.filter_cons, if_pos h1, List.map_cons, List.filter_cons, if_pos h2,
          List.head?_cons, List.find?_cons_of_pos _ (by rw [h1, h2]; rfl)]
        rfl
      · rw [List.filter_cons, if_pos h1, List.map_cons, List.filter_cons,
          if_neg (by simpa using h2),
          List.find?_cons_of_neg _ (by rw [h1]; simpa using h2)]
        exact ih
    · rw [List.filter_cons, if_neg (by simpa using h1),
        List.find?_cons_of_neg _ (by rw [Bool.and_eq_true]; intro hb; exact h1 hb.1)]
      exact ih

/-- C6: the bind-address selection filters out loopback interfaces,
link-local interfaces and non-IPv4 addresses, keeps only addresses with
first octet 10, and returns the first remaining address; if none remains
it fails with the error `Failed to select network interface`. -/
theorem bind_addr_selection (ifaces : List IfAddr) :
    selectBindAddr ifaces =
      match ifaces.find? (fun i => ifaceKeep i && ipTenNet i.ip) with
      | some i => .ok i.ip
      | none => .error "Failed to select network interface".data := by
  rw [selectBindAddr, chain_head_eq_find]
  cases ifaces.find? (fun i => ifaceKeep i && ipTenNet i.ip) with
  | none => rfl
  | some i => rfl

/-! ### Key=value parsing theorems -/

theorem findEq_eq_none (s : List Char) : findEq s = none ↔ '=' ∉ s := by
  induction s with
  | nil => simp [findEq]
  | cons c cs ih =>
    by_cases hc : c = '='
    · subst hc
      simp [findEq]
    · simp only [findEq, if_neg hc, Option.map_eq_none', ih, List.mem_cons]
      constructor
      · intro h hmem
        rcases hmem with h2 | h2
        · exact hc h2.symm
        · exact h h2
      · intro h hmem
        exact h (Or.inr hmem)

theorem findEq_some_spec (s : List Char) :
    ∀ p, findEq s = some p →
      s = s.take p ++ '=' :: s.drop (p + 1) ∧ '=' ∉ s.take p := by
  induction s with
  | nil =>
    intro p h
    simp [findEq] at h
  | cons c cs ih =>
    intro p h
    by_cases hc : c = '='
    · subst hc
      rw [findEq, if_pos rfl] at h
      cases h
      simp
    · rw [findEq, if_neg hc] at h
      cases hq : findEq cs with
      | none =>
        rw [hq] at h
        simp at h
      | some q =>
        rw [hq] at h
        simp only [Option.map_some', Option.some.injEq] at h
        obtain ⟨h1, h2⟩ := ih q hq
        subst h
        constructor
        · rw [List.take_succ_cons, List.drop_succ_cons, List.cons_append]
          exact congrArg (fun t => c :: t) h1
        · rw [List.take_succ_cons]
          intro hmem
          rcases List.mem_cons.mp hmem with h3 | h3
          · exact hc h3.symm
          · exact h2 h3

/-- C5: a string containing `=` parses into the pair split at the FIRST
`=` (the key contains no `=` and key, separator and value reassemble the
input); a string without `=` fails with the descriptive error message,
which contains the offending input. -/
theorem parse_key_val_spec (s : List Char) :
    ('=' ∈ s → ∃ k v, parse_key_val s = .ok (k, v) ∧ s = k ++ '=' :: v ∧ '=' ∉ k) ∧
    ('=' ∉ s → parse_key_val s = .error (noEqMsg s) ∧
      ∃ a b, noEqMsg s = a ++ s ++ b) := by
  constructor
  · intro hmem
    cases hq : findEq s with
    | none => exact absurd hmem ((findEq_eq_none s).mp hq)
    | some p =>
      obtain ⟨h1, h2⟩ := findEq_some_spec s p hq
      refine ⟨s.take p, s.drop (p + 1), ?_, h1, h2⟩
      rw [parse_key_val, hq]
  · intro hnot
    have hq : findEq s = none := (findEq_eq_none s).mpr hnot
    exact ⟨by rw [parse_key_val, hq],
      "invalid KEY=value: no `=` found in `".data, "`".data, rfl⟩

/-- Witness for C5 at concrete inputs: `a=b=c` parses (split at the first
`=`) and `abc` fails with the descriptive error. -/
theorem parse_key_val_spec_witness :
    (∃ k v, parse_key_val "a=b=c".data = .ok (k, v) ∧
      "a=b=c".data = k ++ '=' :: v ∧ '=' ∉ k) ∧
    parse_key_val "abc".data = .error (noEqMsg "abc".data) :=
  ⟨(parse_key_val_spec "a=b=c".data).1 (by decide),
    ((parse_key_val_spec "abc".data).2 (by decide)).1⟩

/-! ### Receive-task theorems -/

/-- C8: over any observed prefix of the incoming stream, the receive task
logs exactly the datagrams delivered before the first socket error, each
truncated to the 1024-byte buffer (so every logged payload has length at
most 1024, and an oversized datagram is cut to exactly 1024 bytes with no
error raised); the task's terminating error is exactly the stream's first
socket error — truncation never terminates the task. -/
theorem recv_truncation_silent (ds : List (Except Nat (List Byte))) :
    (recvTask ds).1 = (okDatagrams ds).map (fun d => d.take RECV_BUF_LEN) ∧
    (∀ l, l ∈ (recvTask ds).1 → l.length ≤ RECV_BUF_LEN) ∧
    (recvTask ds).2 = firstErr ds := by
  induction ds with
  | nil => exact ⟨rfl, fun l hl => absurd hl (List.not_mem_nil l), rfl⟩
  | cons d rest ih =>
    obtain ⟨ih1, ih2, ih3⟩ := ih
    cases d with
    | ok d =>
      refine ⟨?_, ?_, ?_⟩
      · rw [show (recvTask (Except.ok d :: rest)).1 =
            d.take RECV_BUF_LEN :: (recvTask rest).1 from rfl, ih1]
        rfl
      · intro l hl
        rw [show (recvTask (Except.ok d :: rest)).1 =
            d.take RECV_BUF_LEN :: (recvTask rest).1 from rfl] at hl
        rcases List.mem_cons.mp hl with rfl | hl2
        · exact List.length_take_le RECV_BUF_LEN d
        · exact ih2 l hl2
      · exact ih3
    | error e => exact ⟨rfl, fun l hl => absurd hl (List.not_mem_nil l), rfl⟩

/-- Witness for C8 at a concrete input: a 2000-byte datagram followed by
a socket error; the datagram is logged truncated to 1024 bytes and the
error terminates the task. -/
theorem recv_truncation_silent_witness :
    (recvTask [Except.ok (List.replicate 2000 7), Except.error 5]).1 =
      [List.replicate RECV_BUF_LEN 7] ∧
    (recvTask [Except.ok (List.replicate 2000 7), Except.error 5]).2 = some 5 := by
  have h := recv_truncation_silent [Except.ok (List.replicate 2000 7), Except.error 5]
  refine ⟨?_, ?_⟩
  · rw [h.1, show okDatagrams [Except.ok (List.replicate 2000 7), Except.error 5] =
      [List.replicate 2000 7] from rfl, List.map_cons, List.map_nil,
      List.take_replicate, show min RECV_BUF_LEN 2000 = RECV_BUF_LEN from by decide]
  · rw [h.2.2]
    rfl

/-! ### Bounded-queue theorems -/

theorem qPush_lt (q : List Message) (m : Message) (h : q.length < QUEUE_CAP) :
    qPush q m = some (q ++ [m]) := by
  rw [qPush, if_pos h]

theorem qPush_full (q : List Message) (m : Message) (h : QUEUE_CAP ≤ q.length) :
    qPush q m = none := by
  rw [qPush, if_neg (by omega)]

theorem qStep_length_le (q : List Message) (op : QOp) (h : q.length ≤ QUEUE_CAP) :
    (qStep q op).length ≤ QUEUE_CAP := by
  cases op with
  | push m =>
    by_cases hlt : q.length < QUEUE_CAP
    · rw [qStep, qPush_lt q m hlt, Option.getD_some, List.length_append]
      simp only [List.length_cons, List.length_nil]
      omega
    · rw [qStep, qPush_full q m (by omega), Option.getD_none]
      exact h
  | pop =>
    cases q with
    | nil => exact h
    | cons m rest =>
      rw [qStep, qPop, Option.map_some', Option.getD_some]
      show rest.length ≤ QUEUE_CAP
      simp only [List.length_cons] at h
      omega

theorem runQueue_aux_le (ops : List QOp) : ∀ q : List Message,
    q.length ≤ QUEUE_CAP → (ops.foldl qStep q).length ≤ QUEUE_CAP := by
  induction ops with
  | nil => intro q h; exact h
  | cons op rest ih =>
    intro q h
    exact ih (qStep q op) (qStep_length_le q op h)

/-- C9: the queue joining the two components has fixed capacity 10
(`bounded(10)` in `UdpService::new`); starting from the empty queue, no
push/pop schedule ever holds more than 10 messages; a push onto a full
queue blocks the producer (`none`, state unchanged), and once the stalled
consumer pops a message the blocked push succeeds — backpressure. -/
theorem queue_capacity_backpressure :
    QUEUE_CAP = 10 ∧
    (∀ ops : List QOp, (runQueue ops).length ≤ QUEUE_CAP) ∧
    (∀ (q : List Message) (m : Message), q.length = QUEUE_CAP → qPush q m = none) ∧
    (∀ (q : List Message) (m : Message), q.length = QUEUE_CAP →
      ∃ x q2 q3, qPop q = some (x, q2) ∧ qPush q2 m = some q3) := by
  refine ⟨rfl, ?_, ?_, ?_⟩
  · intro ops
    exact runQueue_aux_le ops [] (Nat.zero_le QUEUE_CAP)
  · intro q m h
    exact qPush_full q m (by omega)
  · intro q m h
    cases q with
    | nil =>
      rw [List.length_nil] at h
      exact absurd h (by decide)
    | cons x rest =>
      refine ⟨x, rest, rest ++ [m], rfl, ?_⟩
      apply qPush_lt
      simp only [List.length_cons] at h
      omega

/-- A throwaway message for exercising the queue theorems. -/
def msgQEx : Message := { dst := addrEx, buf := List.replicate 1024 0, n := 0 }

/-- Witness for C9 at a concrete input: with ten messages queued the
eleventh push blocks, and it succeeds after one pop. -/
theorem queue_capacity_backpressure_witness :
    qPush (List.replicate 10 msgQEx) msgQEx = none ∧
    ∃ x q2 q3, qPop (List.replicate 10 msgQEx) = some (x, q2) ∧
      qPush q2 msgQEx = some q3 := by
  have h := queue_capacity_backpressure
  exact ⟨h.2.2.1 _ _ (by rw [List.length_replicate, h.1]),
    h.2.2.2 _ _ (by rw [List.length_replicate, h.1])⟩

/-- Witness for C3 at a concrete input: a fresh message (capacity 1024,
`n = 0`) and a 1025-byte payload; the write fails with `none`. -/
theorem write_str_capacity_invariant_witness :
    Message.write_str { dst := addrEx, buf := List.replicate BUF_CAP 0, n := 0 }
      (List.replicate 1025 0) = none := by
  have h := write_str_capacity_invariant
    { dst := addrEx, buf := List.replicate BUF_CAP 0, n := 0 }
    { dst := addrEx, buf := List.replicate BUF_CAP 0, n := 0 }
    (List.replicate 1025 0) (List.length_replicate BUF_CAP 0) (Nat.zero_le BUF_CAP)
  exact h.2 (by simp only [List.length_replicate]; decide)

end TryMdns
